import Mathlib

/-!
Verification of the Victoria-ui-logs client against its specification.

The TypeScript sources are shallowly embedded: JS strings become `List Char`
(so that the JS primitives `trim`, `split`, `includes`, per-char `toUpperCase`
can be given faithful executable models), JS numbers used as integers become
`Int` (epoch milliseconds), fractional arithmetic becomes `Rat`, and the JS
`Map` / plain-object accumulators become insertion-ordered association lists,
matching the insertion-order iteration semantics of `Map` and of string-keyed
object properties.
-/

namespace VicLogs

/-- A JS string, embedded as its list of characters. -/
abbrev JStr := List Char

/-- `String.prototype.trim`: drop leading whitespace. -/
def trimLeft (s : JStr) : JStr := s.dropWhile Char.isWhitespace

/-- `String.prototype.trim`: drop trailing whitespace. -/
def trimRight (s : JStr) : JStr := (trimLeft s.reverse).reverse

/-- `String.prototype.trim`: drop whitespace at both ends. -/
def jsTrim (s : JStr) : JStr := trimRight (trimLeft s)

/-- `String.prototype.split` with a single-character separator. -/
def splitChar (sep : Char) : JStr → List JStr
  | [] => [[]]
  | c :: rest =>
    if c = sep then [] :: splitChar sep rest
    else
      match splitChar sep rest with
      | [] => [[c]]
      | g :: gs => (c :: g) :: gs

/-- Per-character `String.prototype.toUpperCase` (ASCII fragment). -/
def jsUpper (s : JStr) : JStr := s.map Char.toUpper

/-- Insertion-ordered map update used to model both JS `Map.prototype.set`
and JS object property assignment: update the existing entry in place, or
append a fresh entry at the end. -/
def setVal {κ : Type} [DecidableEq κ] {α : Type} (m : List (κ × α)) (k : κ) (v : α) :
    List (κ × α) :=
  match m with
  | [] => [(k, v)]
  | (k', v') :: rest => if k' = k then (k, v) :: rest else (k', v') :: setVal rest k v

/-- `m.get(k)` / property read on the association-list model. -/
def getVal {κ : Type} [DecidableEq κ] {α : Type} (m : List (κ × α)) (k : κ) : Option α :=
  match m with
  | [] => none
  | (k', v') :: rest => if k' = k then some v' else getVal rest k

/-- The pervasive accumulation step `m.set(k, (m.get(k) || 0) + 1)`. -/
def bump {κ : Type} [DecidableEq κ] (m : List (κ × Nat)) (k : κ) : List (κ × Nat) :=
  match m with
  | [] => [(k, 1)]
  | (k', v') :: rest => if k' = k then (k, v' + 1) :: rest else (k', v') :: bump rest k

/-- Keys of an association-list map, in insertion order (JS iteration order). -/
def keysOf {κ α : Type} (m : List (κ × α)) : List κ := m.map Prod.fst

/-- Values of an association-list map, in insertion order. -/
def valsOf {κ α : Type} (m : List (κ × α)) : List α := m.map Prod.snd

/-! ### src/utils (part_004): `validateLogsQLQuery` -/

/-- The `{ isValid, error? }` result shape of `validateLogsQLQuery`. -/
structure ValidationResult where
  isValid : Bool
  error : Option JStr
deriving DecidableEq

/-- `validateLogsQLQuery` from `src/utils/index.ts`: empty-after-trim check,
then `(`/`)` count comparison, then parity of the `"` count. -/
def validateLogsQLQuery (query : JStr) : ValidationResult :=
  if jsTrim query = [] then ⟨false, some ("Query cannot be empty".data)⟩
  else
    let openParens := query.count '('
    let closeParens := query.count ')'
    if openParens ≠ closeParens then ⟨false, some ("Mismatched parentheses".data)⟩
    else
      let openQuotes := query.count '"'
      if openQuotes % 2 ≠ 0 then ⟨false, some ("Mismatched quotes".data)⟩
      else ⟨true, none⟩

/-- C8: query validation reports the empty-query reason on blank input, the
mismatched-parentheses reason when `(`/`)` counts differ, the mismatched-quotes
reason when the `"` count is odd, and valid otherwise; with the four concrete
examples of the spec. -/
theorem C8_validate_cascade (query : JStr) :
    (jsTrim query = [] →
      validateLogsQLQuery query = ⟨false, some ("Query cannot be empty".data)⟩)
    ∧ (jsTrim query ≠ [] → query.count '(' ≠ query.count ')' →
      validateLogsQLQuery query = ⟨false, some ("Mismatched parentheses".data)⟩)
    ∧ (jsTrim query ≠ [] → query.count '(' = query.count ')' →
        query.count '"' % 2 = 1 →
      validateLogsQLQuery query = ⟨false, some ("Mismatched quotes".data)⟩)
    ∧ (jsTrim query ≠ [] → query.count '(' = query.count ')' →
        query.count '"' % 2 = 0 →
      validateLogsQLQuery query = ⟨true, none⟩)
    ∧ (validateLogsQLQuery "(a=1)".data = ⟨true, none⟩)
    ∧ (validateLogsQLQuery "(a=1".data = ⟨false, some ("Mismatched parentheses".data)⟩)
    ∧ (validateLogsQLQuery "a=\"b".data = ⟨false, some ("Mismatched quotes".data)⟩)
    ∧ (validateLogsQLQuery [] = ⟨false, some ("Query cannot be empty".data)⟩) := by
  refine ⟨?_, ?_, ?_, ?_, by decide, by decide, by decide, by decide⟩
  · intro h; simp [validateLogsQLQuery, h]
  · intro h h2; simp [validateLogsQLQuery, h, h2]
  · intro h h2 h3; simp [validateLogsQLQuery, h, h2, h3]
  · intro h h2 h3; simp [validateLogsQLQuery, h, h2, h3]

/-- Closed witness for C8 at the concrete input `"(a=1)"`. -/
theorem C8_validate_cascade_witness :
    validateLogsQLQuery "(a=1)".data = ⟨true, none⟩ :=
  (C8_validate_cascade "(a=1)".data).2.2.2.1 (by decide) (by decide) (by decide)

/-! ### src/components/QueryBuilder.tsx: `OPERATORS` and `buildQueryFromFilters` -/

/-- One entry of the `OPERATORS` table: a query-string token and a UI label. -/
structure OperatorDef where
  value : JStr
  label : JStr
deriving DecidableEq

/-- The `OPERATORS` constant from `QueryBuilder.tsx`, in source order. -/
def OPERATORS : List OperatorDef :=
  [⟨"=".data, "equals".data⟩,
   ⟨"!=".data, "not equals".data⟩,
   ⟨"~".data, "contains".data⟩,
   ⟨"!~".data, "not contains".data⟩,
   ⟨"=~".data, "regex match".data⟩,
   ⟨"!~".data, "regex not match".data⟩]

/-- C5 counterexample: the operator table has six entries but the token list
`=, !=, ~, !~, =~, !~` is not duplicate-free — the `not contains` entry and the
`regex not match` entry carry the same token `!~` — so the mapping does not
assign each of the six operators its own distinct token. -/
theorem C5_counterexample :
    OPERATORS.length = 6
    ∧ (OPERATORS.map OperatorDef.value)[3]? = (OPERATORS.map OperatorDef.value)[5]?
    ∧ ¬ (OPERATORS.map OperatorDef.value).Nodup := by
  refine ⟨by decide, by decide, ?_⟩
  decide

/-- C5 (amended): the operator set consists of exactly the six enumerated
operators (labels are pairwise distinct), and the fixed token mapping is
`= , != , ~ , !~ , =~ , !~` in that order — only five distinct tokens, with
`not contains` and `regex not match` sharing the token `!~`. -/
theorem C5_operator_table :
    (OPERATORS.map OperatorDef.label) =
      ["equals".data, "not equals".data, "contains".data, "not contains".data,
       "regex match".data, "regex not match".data]
    ∧ (OPERATORS.map OperatorDef.label).Nodup
    ∧ (OPERATORS.map OperatorDef.value) =
      ["=".data, "!=".data, "~".data, "!~".data, "=~".data, "!~".data]
    ∧ (OPERATORS.map OperatorDef.value).dedup.length = 5 := by
  refine ⟨by decide, by decide, by decide, by decide⟩

/-- One filter row of the query builder: field, operator token, value
(the `id` field of the source is UI bookkeeping and carries no query
content). -/
structure FilterClause where
  field : JStr
  op : JStr
  value : JStr
deriving DecidableEq

/-- The truthiness filter `filters.filter(f => f.field && f.value)`:
a JS string is truthy exactly when it is nonempty. -/
def clauseValid (f : FilterClause) : Bool := f.field ≠ [] ∧ f.value ≠ []

/-- The per-clause rendering inside `buildQueryFromFilters`: the value is
wrapped in double quotes when it contains a space or a colon
(`f.value.includes(' ') || f.value.includes(':')`), and the clause renders
as `field`, then operator token, then (possibly quoted) value. -/
def renderClause (f : FilterClause) : JStr :=
  let v := if (' ' ∈ f.value) ∨ (':' ∈ f.value) then '"' :: (f.value ++ ['"']) else f.value
  f.field ++ f.op ++ v

/-- `Array.prototype.join(" AND ")`. -/
def joinAnd : List JStr → JStr
  | [] => []
  | [s] => s
  | s :: rest => s ++ " AND ".data ++ joinAnd rest

/-- `buildQueryFromFilters` from `QueryBuilder.tsx`: drop clauses with an
empty field or value, fall back to the match-all token `*` when none remain,
otherwise render each clause and join with `" AND "`. -/
def buildQueryFromFilters (filters : List FilterClause) : JStr :=
  let validFilters := filters.filter clauseValid
  if validFilters = [] then ['*']
  else joinAnd (validFilters.map renderClause)

/-- C4 counterexample: a clause value containing a tab — whitespace, but
neither a space nor a colon — is rendered without quotes, refuting
"wrapped in double quotes exactly when it contains whitespace or a colon". -/
theorem C4_counterexample :
    (∃ c ∈ ['a', '\t', 'b'], c.isWhitespace)
    ∧ buildQueryFromFilters [⟨['f'], ['='], ['a', '\t', 'b']⟩]
        = ['f', '=', 'a', '\t', 'b']
    ∧ '"' ∉ buildQueryFromFilters [⟨['f'], ['='], ['a', '\t', 'b']⟩] := by
  refine ⟨⟨'\t', by decide, by decide⟩, by decide, by decide⟩

/-- C4 (amended): `buildQueryFromFilters` excludes each clause whose field or
value is empty (the result only depends on the valid clauses); when no valid
clause remains the result is the match-all token `*`; and on a list of valid
clauses it joins the renderings with `" AND "` in input order, where each
rendering is `field ++ op ++ value` with the value wrapped in double quotes
exactly when it contains a space character or a colon (witnessed by the
presence of a `"` character for quote-free inputs). -/
theorem C4_buildQuery (filters : List FilterClause) :
    buildQueryFromFilters filters = buildQueryFromFilters (filters.filter clauseValid)
    ∧ ((∀ f ∈ filters, ¬ clauseValid f) → buildQueryFromFilters filters = ['*'])
    ∧ ((∀ f ∈ filters, clauseValid f) → filters ≠ [] →
        buildQueryFromFilters filters = joinAnd (filters.map renderClause))
    ∧ (∀ f : FilterClause, '"' ∉ f.field → '"' ∉ f.op → '"' ∉ f.value →
        ('"' ∈ renderClause f ↔ (' ' ∈ f.value ∨ ':' ∈ f.value))) := by
  refine ⟨?_, ?_, ?_, ?_⟩
  · simp [buildQueryFromFilters, List.filter_filter]
  · intro h
    have hnil : filters.filter clauseValid = [] := by
      rw [List.filter_eq_nil_iff]
      intro f hf
      simpa using h f hf
    simp [buildQueryFromFilters, hnil]
  · intro h hne
    have hall : filters.filter clauseValid = filters := by
      rw [List.filter_eq_self]
      intro f hf
      simpa using h f hf
    simp only [buildQueryFromFilters, hall, if_neg hne]
  · intro f hf ho hv
    by_cases hq : (' ' ∈ f.value ∨ ':' ∈ f.value)
    · simp only [renderClause, if_pos hq]
      exact ⟨fun _ => hq, fun _ => by simp⟩
    · simp only [renderClause, if_neg hq]
      constructor
      · intro hmem
        exfalso
        rcases List.mem_append.mp hmem with h1 | h2
        · rcases List.mem_append.mp h1 with h3 | h4
          · exact hf h3
          · exact ho h4
        · exact hv h2
      · intro hc; exact absurd hc hq

/-- Closed witness for C4 on a concrete clause list. -/
theorem C4_buildQuery_witness :
    (∀ f ∈ [(⟨"level".data, "=".data, "a b".data⟩ : FilterClause)], clauseValid f)
    ∧ buildQueryFromFilters [⟨"level".data, "=".data, "a b".data⟩]
        = joinAnd ([(⟨"level".data, "=".data, "a b".data⟩ : FilterClause)].map renderClause) := by
  refine ⟨by decide, ?_⟩
  exact (C4_buildQuery [⟨"level".data, "=".data, "a b".data⟩]).2.2.1 (by decide) (by decide)

/-! ### src/pages DriftDetection (part_005): `generateDriftData` classification

`generateDriftData` draws `baseline`/`current` from `Math.random()`; the
deterministic per-pair computation on those two numbers (lines 37-57 of the
source) is embedded as `driftEntry`, with the thresholds as parameters. -/

/-- The three alert tiers of a drift record. -/
inductive AlertLevel where
  | normal
  | warning
  | critical
deriving DecidableEq

/-- `Math.round`: round half towards positive infinity. -/
def jsRound (x : ℚ) : ℤ := ⌊x + 1 / 2⌋

/-- `Math.round(x * 100) / 100`: round to two decimal places. -/
def round2 (x : ℚ) : ℚ := (jsRound (x * 100) : ℚ) / 100

/-- The fields of one generated drift record (service/severity/timestamp
labels omitted — they do not enter the arithmetic). -/
structure DriftRecord where
  currentPeriod : ℚ
  baselinePeriod : ℚ
  delta : ℚ
  percentageChange : ℚ
  alertLevel : AlertLevel
deriving DecidableEq

/-- The drift-record computation from `generateDriftData`:
`delta = current - baseline`,
`percentageChange = Math.abs((delta / baseline) * 100)`, alert level by
strict comparison of that absolute percentage against the critical and then
the warning threshold, and all numeric fields rounded to two decimals. -/
def driftEntry (warningThreshold criticalThreshold baseline current : ℚ) : DriftRecord :=
  let delta := current - baseline
  let percentageChange := |delta / baseline * 100|
  let alertLevel :=
    if percentageChange > criticalThreshold then AlertLevel.critical
    else if percentageChange > warningThreshold then AlertLevel.warning
    else AlertLevel.normal
  ⟨round2 current, round2 baseline, round2 delta, round2 percentageChange, alertLevel⟩

/-- C3 counterexample: with thresholds 20/50, baseline 100 and current 150,
the absolute percentage change is exactly the critical threshold 50, the
claim classifies it as critical ("at least the critical threshold"), but the
code's strict comparison yields warning. -/
theorem C3_counterexample :
    (driftEntry 20 50 100 150).percentageChange = 50
    ∧ ((50 : ℚ) ≥ 50)
    ∧ (driftEntry 20 50 100 150).alertLevel = AlertLevel.warning
    ∧ AlertLevel.warning ≠ AlertLevel.critical := by
  refine ⟨?_, by norm_num, ?_, by decide⟩
  · show round2 |(150 - 100) / 100 * 100| = 50
    norm_num [round2, jsRound]
  · show (if |(150 - (100 : ℚ)) / 100 * 100| > 50 then AlertLevel.critical
      else if |(150 - (100 : ℚ)) / 100 * 100| > 20 then AlertLevel.warning
      else AlertLevel.normal) = AlertLevel.warning
    norm_num

/-- C3 (amended): for positive baseline `b`, current `c` and thresholds
`w < k`, the drift record carries `delta = round2 (c - b)` (equal to `c - b`
whenever the counts are integers, since rounding fixes integers) and
`percentageChange = round2 |(c - b) / b * 100|`; the alert level is critical
exactly when the unrounded absolute percentage change strictly exceeds the
critical threshold, warning exactly when it strictly exceeds the warning
threshold but not the critical one, and normal exactly when it is at most the
warning threshold. With thresholds 20/50: baseline 100 / current 149 (49%)
is warning, 100 / 151 (51%) is critical, 100 / 110 (10%) is normal. -/
theorem C3_driftEntry (b c w k : ℚ) (hb : 0 < b) (hwk : w < k) :
    ((driftEntry w k b c).delta = round2 (c - b)
      ∧ (∀ z : ℤ, round2 ((z : ℚ)) = z)
      ∧ (driftEntry w k b c).percentageChange = round2 |(c - b) / b * 100|
      ∧ ((driftEntry w k b c).alertLevel = AlertLevel.critical ↔ |(c - b) / b * 100| > k)
      ∧ ((driftEntry w k b c).alertLevel = AlertLevel.warning ↔
          (w < |(c - b) / b * 100| ∧ |(c - b) / b * 100| ≤ k))
      ∧ ((driftEntry w k b c).alertLevel = AlertLevel.normal ↔ |(c - b) / b * 100| ≤ w))
    ∧ (driftEntry 20 50 100 149).alertLevel = AlertLevel.warning
    ∧ (driftEntry 20 50 100 151).alertLevel = AlertLevel.critical
    ∧ (driftEntry 20 50 100 110).alertLevel = AlertLevel.normal := by
  have hzint : ∀ z : ℤ, round2 ((z : ℚ)) = z := by
    intro z
    have h1 : ((z : ℚ) * 100 + 1 / 2) = ((z * 100 : ℤ) : ℚ) + 1 / 2 := by push_cast; ring
    have hhalf : ⌊(1 / 2 : ℚ)⌋ = 0 := by
      rw [Int.floor_eq_zero_iff, Set.mem_Ico]
      constructor <;> norm_num
    have h2 : jsRound ((z : ℚ) * 100) = z * 100 := by
      rw [jsRound, h1, Int.floor_int_add, hhalf, add_zero]
    rw [round2, h2]
    push_cast
    field_simp
  refine ⟨⟨rfl, hzint, rfl, ?_, ?_, ?_⟩, ?_, ?_, ?_⟩
  · show (if |(c - b) / b * 100| > k then AlertLevel.critical
      else if |(c - b) / b * 100| > w then AlertLevel.warning
      else AlertLevel.normal) = AlertLevel.critical ↔ |(c - b) / b * 100| > k
    by_cases h : |(c - b) / b * 100| > k
    · simp [h]
    · simp only [if_neg h]
      constructor
      · intro hcontra
        by_cases h2 : |(c - b) / b * 100| > w <;> simp [h2] at hcontra
      · intro hcontra; exact absurd hcontra h
  · show (if |(c - b) / b * 100| > k then AlertLevel.critical
      else if |(c - b) / b * 100| > w then AlertLevel.warning
      else AlertLevel.normal) = AlertLevel.warning ↔
      (w < |(c - b) / b * 100| ∧ |(c - b) / b * 100| ≤ k)
    by_cases h : |(c - b) / b * 100| > k
    · simp only [if_pos h]
      constructor
      · intro hcontra; exact absurd hcontra (by decide)
      · rintro ⟨-, hle⟩; exact absurd h (not_lt.mpr hle)
    · simp only [if_neg h]
      by_cases h2 : |(c - b) / b * 100| > w
      · simp only [if_pos h2]
        exact ⟨fun _ => ⟨h2, not_lt.mp h⟩, fun _ => by trivial⟩
      · simp only [if_neg h2]
        constructor
        · intro hcontra; exact absurd hcontra (by decide)
        · rintro ⟨hw, -⟩; exact absurd hw h2
  · show (if |(c - b) / b * 100| > k then AlertLevel.critical
      else if |(c - b) / b * 100| > w then AlertLevel.warning
      else AlertLevel.normal) = AlertLevel.normal ↔ |(c - b) / b * 100| ≤ w
    by_cases h : |(c - b) / b * 100| > k
    · simp only [if_pos h]
      constructor
      · intro hcontra; exact absurd hcontra (by decide)
      · intro hle
        exact absurd h (not_lt.mpr (le_trans hle (le_of_lt hwk)))
    · simp only [if_neg h]
      by_cases h2 : |(c - b) / b * 100| > w
      · simp only [if_pos h2]
        constructor
        · intro hcontra; exact absurd hcontra (by decide)
        · intro hle; exact absurd h2 (not_lt.mpr hle)
      · simp only [if_neg h2]
        exact ⟨fun _ => not_lt.mp h2, fun _ => by trivial⟩
  · show (if |(149 - (100 : ℚ)) / 100 * 100| > 50 then AlertLevel.critical
      else if |(149 - (100 : ℚ)) / 100 * 100| > 20 then AlertLevel.warning
      else AlertLevel.normal) = AlertLevel.warning
    norm_num
  · show (if |(151 - (100 : ℚ)) / 100 * 100| > 50 then AlertLevel.critical
      else if |(151 - (100 : ℚ)) / 100 * 100| > 20 then AlertLevel.warning
      else AlertLevel.normal) = AlertLevel.critical
    norm_num
  · show (if |(110 - (100 : ℚ)) / 100 * 100| > 50 then AlertLevel.critical
      else if |(110 - (100 : ℚ)) / 100 * 100| > 20 then AlertLevel.warning
      else AlertLevel.normal) = AlertLevel.normal
    norm_num

/-- Closed witness for C3 at baseline 100, current 149, thresholds 20/50. -/
theorem C3_driftEntry_witness :
    ((0 : ℚ) < 100 ∧ (20 : ℚ) < 50)
    ∧ (driftEntry 20 50 100 149).alertLevel = AlertLevel.warning :=
  ⟨⟨by norm_num, by norm_num⟩, (C3_driftEntry 100 149 20 50 (by norm_num) (by norm_num)).2.1⟩

/-! ### The log-record model

A `LogEntry` as consumed by the charts: `_time` (already parsed to epoch
milliseconds — all claims under consideration assume parseable timestamps),
`_msg`, and the optional `level` / `service` / `host` fields; `none` models
an absent (JS `undefined`) field. -/

structure LogRecord where
  time : ℤ
  msg : JStr := []
  level : Option JStr := none
  service : Option JStr := none
  host : Option JStr := none
deriving DecidableEq

/-- JS truthiness of an optional string field (`log.level && ...`,
`log[groupBy] || ...`): absent and empty strings are falsy. -/
def fieldTruthy : Option JStr → Bool
  | none => false
  | some s => s ≠ []

/-- The `groupBy` selector `'level' | 'service' | 'host'` of the charts. -/
inductive GroupField where
  | level
  | service
  | host
deriving DecidableEq

/-- `log[groupBy]` field access. -/
def getGroup (g : GroupField) (r : LogRecord) : Option JStr :=
  match g with
  | .level => r.level
  | .service => r.service
  | .host => r.host

/-! ### src/components/charts/GaugeChart.tsx -/

/-- The gauge `metric` selector. -/
inductive GaugeMetric where
  | error_rate
  | warning_rate
  | activity_level
deriving DecidableEq

/-- The `value` computed by `GaugeChart`'s `gaugeData` memo. With no logs the
early return yields 0. `error_rate` counts records with `log.level === 'ERROR'`
(strict equality), `warning_rate` counts `log.level === 'WARN'`, and
`activity_level` divides the record count by the observed span in minutes
(`1` when there are fewer than two records), scales against 10/minute and
clamps at 100; when the observed span is zero the JS division yields
`Infinity`, which the clamp maps to 100, modelled by the explicit
zero-span branch. The final result is `Math.min(value, 100)`. -/
def gaugeValue (metric : GaugeMetric) (logs : List LogRecord) : ℚ :=
  match logs with
  | [] => 0
  | l0 :: rest =>
    let n : ℚ := (l0 :: rest).length
    let value : ℚ :=
      match metric with
      | .error_rate =>
        (((l0 :: rest).filter (fun r => r.level = some ("ERROR".data))).length : ℚ) / n * 100
      | .warning_rate =>
        (((l0 :: rest).filter (fun r => r.level = some ("WARN".data))).length : ℚ) / n * 100
      | .activity_level =>
        let timeSpan : ℚ :=
          if 1 < (l0 :: rest).length then
            ((((l0 :: rest).getLast (List.cons_ne_nil l0 rest)).time - l0.time : ℤ) : ℚ) / 60000
          else 1
        if timeSpan = 0 then 100
        else min ((n / timeSpan) / 10 * 100) 100
    min value 100

/-- The error tier used by `ErrorChart` (and claimed for the gauge):
`['ERROR', 'FATAL', 'CRITICAL'].includes(level.toUpperCase())` guarded by
truthiness of `level`. -/
def isErrorTier (r : LogRecord) : Bool :=
  match r.level with
  | none => false
  | some l => l ≠ [] ∧ jsUpper l ∈ ["ERROR".data, "FATAL".data, "CRITICAL".data]

/-- C7 counterexample: a single record at level `FATAL` is in the
case-insensitive error tier, so the claim puts the gauge's error rate at
100; the gauge compares `level === 'ERROR'` literally and reports 0. -/
theorem C7_counterexample :
    isErrorTier ⟨0, [], some ("FATAL".data), none, none⟩ = true
    ∧ gaugeValue .error_rate [⟨0, [], some ("FATAL".data), none, none⟩] = 0
    ∧ (0 : ℚ) ≠ (1 : ℚ) / 1 * 100 := by
  refine ⟨by decide, ?_, by norm_num⟩
  show min ((((0 : ℕ) : ℚ)) / 1 * 100) 100 = 0
  norm_num

/-- C7 (amended): for a non-empty record list the gauge's error-rate value is
the count of records whose `level` is literally the string `ERROR` (case
sensitive, no FATAL/CRITICAL), divided by the record count, times 100; the
warning-rate value is the analogous count for the literal `WARN`; and for
records whose observed span `(last.time - first.time)` is positive, the
activity value is records-per-minute over that span scaled against the fixed
reference rate of 10/minute and clamped at 100. -/
theorem C7_gauge (logs : List LogRecord) (hne : logs ≠ []) :
    (gaugeValue .error_rate logs =
      ((logs.filter (fun r => r.level = some ("ERROR".data))).length : ℚ) / logs.length * 100)
    ∧ (gaugeValue .warning_rate logs =
      ((logs.filter (fun r => r.level = some ("WARN".data))).length : ℚ) / logs.length * 100)
    ∧ (∀ l0 rest, logs = l0 :: rest →
        l0.time < ((l0 :: rest).getLast (List.cons_ne_nil l0 rest)).time →
        gaugeValue .activity_level logs =
          min (((logs.length : ℚ) /
              ((((l0 :: rest).getLast (List.cons_ne_nil l0 rest)).time - l0.time : ℤ) / 60000 : ℚ))
            / 10 * 100) 100) := by
  obtain ⟨l0, rest, rfl⟩ : ∃ l0 rest, logs = l0 :: rest := by
    cases logs with
    | nil => exact absurd rfl hne
    | cons a b => exact ⟨a, b, rfl⟩
  have hn : (0 : ℚ) < ((l0 :: rest).length : ℚ) := by
    have : 0 < (l0 :: rest).length := List.length_pos.mpr (List.cons_ne_nil l0 rest)
    exact_mod_cast this
  have hrate : ∀ p : LogRecord → Bool,
      (((l0 :: rest).filter p).length : ℚ) / ((l0 :: rest).length : ℚ) * 100 ≤ 100 := by
    intro p
    have hle : ((l0 :: rest).filter p).length ≤ (l0 :: rest).length :=
      List.length_filter_le _ _
    have hle' : (((l0 :: rest).filter p).length : ℚ) ≤ ((l0 :: rest).length : ℚ) := by
      exact_mod_cast hle
    have h1 : (((l0 :: rest).filter p).length : ℚ) / ((l0 :: rest).length : ℚ) ≤ 1 := by
      rw [div_le_one hn]; exact hle'
    calc (((l0 :: rest).filter p).length : ℚ) / ((l0 :: rest).length : ℚ) * 100
        ≤ 1 * 100 := by
          exact mul_le_mul_of_nonneg_right h1 (by norm_num)
      _ = 100 := by norm_num
  refine ⟨?_, ?_, ?_⟩
  · show min ((((l0 :: rest).filter
        (fun r => r.level = some ("ERROR".data))).length : ℚ) /
          ((l0 :: rest).length : ℚ) * 100) 100 = _
    exact min_eq_left (hrate _)
  · show min ((((l0 :: rest).filter
        (fun r => r.level = some ("WARN".data))).length : ℚ) /
          ((l0 :: rest).length : ℚ) * 100) 100 = _
    exact min_eq_left (hrate _)
  · intro la ra heq hspan
    cases heq
    have hlen : 1 < (l0 :: rest).length := by
      cases rest with
      | nil =>
        exfalso
        simp [List.getLast] at hspan
      | cons a b => simp
    have hspanq : (0 : ℚ) <
        ((((l0 :: rest).getLast (List.cons_ne_nil l0 rest)).time - l0.time : ℤ) : ℚ) / 60000 := by
      apply div_pos
      · exact_mod_cast Int.sub_pos.mpr hspan
      · norm_num
    show min (if (if 1 < (l0 :: rest).length then _ else _) = _ then _ else _) _ = _
    rw [if_pos hlen]
    rw [if_neg (ne_of_gt hspanq)]
    exact min_eq_left (min_le_right _ _)

/-- Closed witness for C7 on a concrete two-record list. -/
theorem C7_gauge_witness :
    ([⟨0, [], some ("ERROR".data), none, none⟩,
      (⟨120000, [], some ("INFO".data), none, none⟩ : LogRecord)] ≠ ([] : List LogRecord))
    ∧ gaugeValue .error_rate
        [⟨0, [], some ("ERROR".data), none, none⟩,
         ⟨120000, [], some ("INFO".data), none, none⟩] = (1 : ℚ) / 2 * 100 := by
  constructor
  · decide
  · have h := (C7_gauge
      [⟨0, [], some ("ERROR".data), none, none⟩,
       ⟨120000, [], some ("INFO".data), none, none⟩] (by decide)).1
    rw [h]
    norm_num

/-! ### src/services/api.ts: `VictoriaLogsAPI.queryLogs` response normalization -/

/-- A JSON value (numbers as rationals). -/
inductive Json where
  | null
  | bool (b : Bool)
  | num (q : ℚ)
  | str (s : JStr)
  | arr (elems : List Json)
  | obj (fields : List (JStr × Json))

/-- JS truthiness of a JSON value: `null`, `false`, `0` and the empty string
are falsy; arrays and objects (even empty) are truthy. -/
def jsTruthy : Json → Bool
  | .null => false
  | .bool b => b
  | .num q => q ≠ 0
  | .str s => s ≠ []
  | .arr _ => true
  | .obj _ => true

/-- Property lookup on a parsed JSON object (`JSON.parse` keeps the last
occurrence of a duplicated key, so lookup scans for the last match). -/
def jsGet (fields : List (JStr × Json)) (k : JStr) : Option Json :=
  match fields with
  | [] => none
  | (k', v) :: rest =>
    match jsGet rest k with
    | some v' => some v'
    | none => if k' = k then some v else none

/-- The shape of `response.data` as the `typeof`/`Array.isArray` cascade of
`queryLogs` distinguishes it: a raw string body, a JSON array, a JSON object
(not null, not an array), or anything else (number / boolean / null, for
which none of the branches fire). -/
inductive ResponseData where
  | str (body : JStr)
  | arr (elems : List Json)
  | obj (fields : List (JStr × Json))
  | other

/-- The normalization in `queryLogs` (lines 62-89 of `api.ts`), producing the
final value of the `values` variable. `parse` abstracts the platform's
`JSON.parse` on one line (`none` = the parse threw, so the line is dropped).
A string body is trimmed, split on newlines, blank lines are dropped, and the
remaining lines are parsed with failures filtered out (`filter(Boolean)`);
an array is taken as-is; an object with a truthy `values` property yields
that property's raw value, any other object becomes a singleton; anything
else leaves `values` at its initial `[]`. The result is the JS value held by
`values` (an array in all branches except a truthy non-array `values`
property, which the source passes through unchecked). -/
def queryLogsValues (parse : JStr → Option Json) : ResponseData → Json
  | .str body =>
    .arr ((((splitChar '\n' (jsTrim body)).filter
      (fun line => jsTrim line ≠ [])).filterMap parse))
  | .arr elems => .arr elems
  | .obj fields =>
    match jsGet fields ("values".data) with
    | some v => if jsTruthy v then v else .arr [.obj fields]
    | none => .arr [.obj fields]
  | .other => .arr []

/-- Splitting a separator-free string yields one segment. -/
theorem splitChar_of_not_mem {sep : Char} {s : JStr} (h : sep ∉ s) :
    splitChar sep s = [s] := by
  induction s with
  | nil => rfl
  | cons c rest ih =>
    have hcs : ¬ c = sep := fun hc => h (hc ▸ List.mem_cons_self c rest)
    have hrest : sep ∉ rest := fun hr => h (List.mem_cons_of_mem c hr)
    rw [splitChar, if_neg hcs, ih hrest]

/-- Splitting at the first separator occurrence. -/
theorem splitChar_append {sep : Char} {s t : JStr} (h : sep ∉ s) :
    splitChar sep (s ++ sep :: t) = s :: splitChar sep t := by
  induction s with
  | nil => simp [splitChar]
  | cons c rest ih =>
    have hcs : ¬ c = sep := fun hc => h (hc ▸ List.mem_cons_self c rest)
    have hrest : sep ∉ rest := fun hr => h (List.mem_cons_of_mem c hr)
    have := ih hrest
    rw [List.cons_append, splitChar, if_neg hcs, this]

/-- The length of `dropWhile` never exceeds the input length. -/
theorem dropWhile_length_le (p : Char → Bool) (l : JStr) :
    (l.dropWhile p).length ≤ l.length := by
  induction l with
  | nil => simp
  | cons c rest ih =>
    by_cases hc : p c = true
    · rw [List.dropWhile_cons_of_pos hc]
      exact Nat.le_succ_of_le ih
    · rw [List.dropWhile_cons_of_neg hc]

/-- `trimLeft` keeps a string whose first character is not whitespace. -/
theorem trimLeft_eq_self_append {s t : JStr} (hne : s ≠ [])
    (hs : trimLeft s = s) : trimLeft (s ++ t) = s ++ t := by
  cases s with
  | nil => exact absurd rfl hne
  | cons c rest =>
    have hcw : ¬ c.isWhitespace = true := by
      intro hw
      have : trimLeft (c :: rest) = trimLeft rest := by
        simp [trimLeft, List.dropWhile, hw]
      rw [hs] at this
      have hlen := congrArg List.length this
      have hle : (trimLeft rest).length ≤ rest.length :=
        dropWhile_length_le _ _
      simp [trimLeft] at hle hlen
      omega
    simp [trimLeft, List.dropWhile, hcw]

/-- `trimRight` keeps a string whose last character is not whitespace. -/
theorem trimRight_eq_append_self {s t : JStr} (hne : t ≠ [])
    (ht : trimRight t = t) : trimRight (s ++ t) = s ++ t := by
  have hrev : trimLeft t.reverse = t.reverse := by
    have := congrArg List.reverse ht
    rw [trimRight, List.reverse_reverse] at this
    exact this
  have hrevne : t.reverse ≠ [] := by
    intro hc
    exact hne (by simpa using congrArg List.reverse hc)
  have h1 : trimLeft (t.reverse ++ s.reverse) = t.reverse ++ s.reverse :=
    trimLeft_eq_self_append hrevne hrev
  rw [trimRight, List.reverse_append, h1, List.reverse_append,
    List.reverse_reverse, List.reverse_reverse]

/-- C1: response normalization. A two-line newline-delimited body with both
lines parseable yields exactly the two parsed records in order; a line that
fails to parse is skipped, never fatal; the equivalent two-element array
yields the same sequence; an object with a `values` array is unwrapped to
exactly that array; an object with no (or a null) `values` property becomes
a one-element sequence. Hence the two-line body, the two-element array, and
(for the singleton case) the plain object all normalize to the same flat
ordered record sequence. -/
theorem C1_queryLogs (parse : JStr → Option Json) (l1 l2 : JStr) (r1 r2 : Json)
    (h1 : parse l1 = some r1) (h2 : parse l2 = some r2)
    (hne1 : l1 ≠ []) (hne2 : l2 ≠ [])
    (htl1 : trimLeft l1 = l1) (htr2 : trimRight l2 = l2)
    (hn1 : '\n' ∉ l1) (hn2 : '\n' ∉ l2)
    (hb1 : jsTrim l1 ≠ []) (hb2 : jsTrim l2 ≠ []) :
    (queryLogsValues parse (.str (l1 ++ '\n' :: l2)) = .arr [r1, r2])
    ∧ (queryLogsValues parse (.arr [r1, r2]) = .arr [r1, r2])
    ∧ (∀ bad, parse bad = none → bad ≠ [] → trimRight bad = bad → '\n' ∉ bad →
        jsTrim bad ≠ [] →
        queryLogsValues parse (.str (l1 ++ '\n' :: bad)) = .arr [r1])
    ∧ (∀ fields elems, jsGet fields ("values".data) = some (.arr elems) →
        queryLogsValues parse (.obj fields) = .arr elems)
    ∧ (∀ fields, jsGet fields ("values".data) = none →
        queryLogsValues parse (.obj fields) = .arr [.obj fields])
    ∧ (∀ fields, jsGet fields ("values".data) = some .null →
        queryLogsValues parse (.obj fields) = .arr [.obj fields]) := by
  have hbody : ∀ lastLine : JStr, lastLine ≠ [] → trimRight lastLine = lastLine →
      '\n' ∉ lastLine →
      splitChar '\n' (jsTrim (l1 ++ '\n' :: lastLine)) = [l1, lastLine] := by
    intro lastLine hlne hltr hlnn
    have htrim : jsTrim (l1 ++ '\n' :: lastLine) = l1 ++ '\n' :: lastLine := by
      have h1' : trimLeft (l1 ++ '\n' :: lastLine) = l1 ++ '\n' :: lastLine :=
        trimLeft_eq_self_append hne1 htl1
      have h2' : trimRight (l1 ++ '\n' :: lastLine) = l1 ++ '\n' :: lastLine := by
        have : l1 ++ '\n' :: lastLine = (l1 ++ ['\n']) ++ lastLine := by simp
        rw [this]
        exact trimRight_eq_append_self hlne hltr
      rw [jsTrim, h1', h2']
    rw [htrim, splitChar_append hn1, splitChar_of_not_mem hlnn]
  refine ⟨?_, rfl, ?_, ?_, ?_, ?_⟩
  · rw [queryLogsValues, hbody l2 hne2 htr2 hn2]
    simp [List.filter, hb1, hb2, List.filterMap, h1, h2]
  · intro bad hbp hbne hbtr hbnn hbb
    rw [queryLogsValues, hbody bad hbne hbtr hbnn]
    simp [List.filter, hb1, hbb, List.filterMap, h1, hbp]
  · intro fields elems hget
    rw [queryLogsValues, hget]
    rfl
  · intro fields hget
    rw [queryLogsValues, hget]
  · intro fields hget
    rw [queryLogsValues, hget]
    rfl

/-- A concrete parse function for the C1 witness: the body lines `recA` and
`recB` parse to the corresponding one-field objects, anything else fails
(standing in for `JSON.parse` on two well-formed and arbitrary other
lines). -/
def parseW (line : JStr) : Option Json :=
  if line = "recA".data then some (.obj [("a".data, .num 1)])
  else if line = "recB".data then some (.obj [("b".data, .num 2)])
  else none

/-- Closed witness for C1: the two-line body and the two-element array both
normalize to the same two-record sequence. -/
theorem C1_queryLogs_witness :
    queryLogsValues parseW (.str ("recA".data ++ '\n' :: "recB".data)) =
      .arr [.obj [("a".data, .num 1)], .obj [("b".data, .num 2)]]
    ∧ queryLogsValues parseW
        (.arr [.obj [("a".data, .num 1)], .obj [("b".data, .num 2)]]) =
      .arr [.obj [("a".data, .num 1)], .obj [("b".data, .num 2)]] := by
  have h := C1_queryLogs parseW ("recA".data) ("recB".data)
    (.obj [("a".data, .num 1)]) (.obj [("b".data, .num 2)])
    (by rfl) (by rfl) (by decide) (by decide)
    (by decide) (by decide) (by decide) (by decide)
    (by decide) (by decide)
  exact ⟨h.1, h.2.1⟩

/-! ### Frequency counts: PieChart / DonutChart / TreemapChart (part_002),
ServiceChart (part_002), HostChart, LogLevelChart -/

/-- `log[groupBy] || 'unknown'`: the grouping key with the lowercase
placeholder used by PieChart / DonutChart / TreemapChart / StackedAreaChart. -/
def groupKeyOf (g : GroupField) (r : LogRecord) : JStr :=
  match getGroup g r with
  | some s => if s = [] then "unknown".data else s
  | none => "unknown".data

/-- `log.service || 'Unknown'`: the key used by ServiceChart's reducer. -/
def serviceKeyOf (r : LogRecord) : JStr :=
  match r.service with
  | some s => if s = [] then "Unknown".data else s
  | none => "Unknown".data

/-- The `Map`-based counting loop shared by PieChart / DonutChart /
TreemapChart: one `bump` per record, keyed by `log[groupBy] || 'unknown'`. -/
def groupCounts (g : GroupField) (logs : List LogRecord) : List (JStr × ℕ) :=
  logs.foldl (fun m r => bump m (groupKeyOf g r)) []

/-- ServiceChart's `reduce`-into-object counting (JS object properties with
string keys iterate in insertion order, so the same model applies). -/
def serviceCounts (logs : List LogRecord) : List (JStr × ℕ) :=
  logs.foldl (fun m r => bump m (serviceKeyOf r)) []

/-- A `bump` adds exactly one to the total of all counts. -/
theorem sum_valsOf_bump {κ : Type} [DecidableEq κ] (m : List (κ × ℕ)) (k : κ) :
    (valsOf (bump m k)).sum = (valsOf m).sum + 1 := by
  induction m with
  | nil => rfl
  | cons p rest ih =>
    obtain ⟨k', v'⟩ := p
    by_cases hk : k' = k
    · simp [bump, hk, valsOf]
      omega
    · simp [bump, hk, valsOf] at ih ⊢
      omega

/-- Folding `bump` over a record list adds the list length to the total. -/
theorem sum_valsOf_foldl_bump {κ : Type} [DecidableEq κ] (key : LogRecord → κ)
    (logs : List LogRecord) (m : List (κ × ℕ)) :
    (valsOf (logs.foldl (fun acc r => bump acc (key r)) m)).sum
      = (valsOf m).sum + logs.length := by
  induction logs generalizing m with
  | nil => simp
  | cons r rest ih =>
    rw [List.foldl_cons, ih, sum_valsOf_bump, List.length_cons]
    omega

/-- C10: for every record list and grouping field, the pre-truncation
frequency counts sum exactly to the number of records — each record
contributes exactly one increment (to the `unknown` / `Unknown` placeholder
when its field is absent or empty), so grouping neither drops nor
double-counts records. -/
theorem C10_counts_sum (g : GroupField) (logs : List LogRecord) :
    (valsOf (groupCounts g logs)).sum = logs.length
    ∧ (valsOf (serviceCounts logs)).sum = logs.length := by
  constructor
  · rw [groupCounts, sum_valsOf_foldl_bump]
    simp [valsOf]
  · rw [serviceCounts, sum_valsOf_foldl_bump]
    simp [valsOf]

/-! ### ErrorChart (part_000): error filter, rate, hourly trend

`errorRate` passes through `toFixed(1)`/`parseFloat`; floating-point noise
aside (the embedding computes in `ℚ`), that is rounding to one decimal
place. The hourly map first zero-initializes the 24 hour buckets
`floor((now - i*3600000) / 3600000)` for `i = 23 .. 0` (a JS `Map`, so the
24 keys sit in that insertion order) and then increments the bucket
`floor(logTime / 3600000)` of every error record, appending out-of-window
buckets at the end; `hourlyData` is the value sequence in insertion order. -/

/-- One hour in milliseconds. -/
def oneHourMs : ℤ := 60 * 60 * 1000

/-- `Math.floor(t / 3600000)` for an integer `t`: flooring division. -/
def hourKey (t : ℤ) : ℤ := Int.fdiv t oneHourMs

/-- `parseFloat(x.toFixed(1))`: round to one decimal place. -/
def toFixed1 (x : ℚ) : ℚ := (jsRound (x * 10) : ℚ) / 10

/-- The object produced by `ErrorChart`'s `errorData` memo; the empty-input
early return carries no `totalErrors`/`hourlyData` members, modelled by
`none`. The `errors` field keeps the selected records themselves (their
display formatting is presentational). -/
structure ErrorData where
  errors : List LogRecord
  trend : JStr
  errorRate : ℚ
  totalErrors : Option ℕ
  hourlyData : Option (List ℕ)

/-- `ErrorChart.errorData` from part_000, lines 255-307. -/
def errorChartData (now : ℤ) (logs : List LogRecord) : ErrorData :=
  match logs with
  | [] => ⟨[], "stable".data, 0, none, none⟩
  | l0 :: rest =>
    let allLogs := l0 :: rest
    let errorLogs := allLogs.filter isErrorTier
    let errorRate := toFixed1 ((errorLogs.length : ℚ) / (allLogs.length : ℚ) * 100)
    let initMap := (List.range 24).foldl
      (fun m (j : ℕ) => setVal m (hourKey (now - (23 - (j : ℤ)) * oneHourMs)) 0) []
    let filled := errorLogs.foldl (fun m r => bump m (hourKey r.time)) initMap
    let hourlyData := valsOf filled
    let recent := (hourlyData.drop (hourlyData.length - 3)).sum
    let previous := ((hourlyData.take (hourlyData.length - 3)).drop
      (hourlyData.length - 6)).sum
    let trend : JStr :=
      if (recent : ℚ) > (previous : ℚ) * (12 / 10) then "up".data
      else if (recent : ℚ) < (previous : ℚ) * (8 / 10) then "down".data
      else "stable".data
    let recentErrors := (errorLogs.drop (errorLogs.length - 5)).reverse
    ⟨recentErrors, trend, errorRate, some errorLogs.length, some hourlyData⟩

/-- Setting a fresh key appends it (JS `Map` insertion order). -/
theorem setVal_not_mem {κ α : Type} [DecidableEq κ] {m : List (κ × α)} {k : κ}
    (h : k ∉ keysOf m) (v : α) : setVal m k v = m ++ [(k, v)] := by
  induction m with
  | nil => rfl
  | cons p rest ih =>
    obtain ⟨k', v'⟩ := p
    have hk : ¬ k' = k := by
      intro hc
      exact h (by simp [keysOf, hc])
    have hrest : k ∉ keysOf rest := by
      intro hc
      exact h (by simp [keysOf] at hc ⊢; exact Or.inr hc)
    rw [setVal, if_neg hk, ih hrest, List.cons_append]

/-- Zero-initializing along an injective key sequence produces the key/zero
pairs in order. -/
theorem foldl_setVal_range (key : ℕ → ℤ) (hinj : Function.Injective key) (n : ℕ) :
    (List.range n).foldl (fun m j => setVal m (key j) 0) []
      = (List.range n).map (fun j => (key j, 0)) := by
  induction n with
  | zero => rfl
  | succ n ih =>
    rw [List.range_succ, List.foldl_append, ih, List.map_append]
    have hfresh : key n ∉ keysOf ((List.range n).map (fun j => (key j, 0))) := by
      intro hc
      simp only [keysOf, List.map_map, List.mem_map, Function.comp] at hc
      obtain ⟨j, hj, hkey⟩ := hc
      have hje := hinj hkey
      have hjn := List.mem_range.mp hj
      omega
    simp only [List.foldl_cons, List.foldl_nil]
    rw [setVal_not_mem hfresh]
    rfl

/-- Mapping a bump-at-`k` over entries whose keys avoid `k` is the
identity. -/
theorem map_bumpAt_not_mem {κ : Type} [DecidableEq κ] {m : List (κ × ℕ)} {k : κ}
    (h : k ∉ keysOf m) :
    m.map (fun p => if p.1 = k then (p.1, p.2 + 1) else p) = m := by
  induction m with
  | nil => rfl
  | cons p rest ih =>
    obtain ⟨k', v'⟩ := p
    have hk : ¬ k' = k := fun hc => h (by simp [keysOf, hc])
    have hrest : k ∉ keysOf rest := by
      intro hc
      exact h (by simp [keysOf] at hc ⊢; exact Or.inr hc)
    simp only [List.map_cons, if_neg hk, ih hrest]

/-- On a map with distinct keys containing `k`, `bump` is a pointwise
increment at `k`. -/
theorem bump_mem {κ : Type} [DecidableEq κ] {m : List (κ × ℕ)} {k : κ}
    (hk : k ∈ keysOf m) (hnd : (keysOf m).Nodup) :
    bump m k = m.map (fun p => if p.1 = k then (p.1, p.2 + 1) else p) := by
  induction m with
  | nil => simp [keysOf] at hk
  | cons p rest ih =>
    obtain ⟨k', v'⟩ := p
    simp only [keysOf, List.map_cons, List.nodup_cons] at hnd
    by_cases hkk : k' = k
    · subst hkk
      have hrest : k' ∉ keysOf rest := hnd.1
      rw [bump, if_pos rfl, List.map_cons, if_pos rfl,
        map_bumpAt_not_mem hrest]
    · have hkrest : k ∈ keysOf rest := by
        simp [keysOf] at hk
        rcases hk with h1 | h2
        · exact absurd h1.symm hkk
        · simpa [keysOf] using h2
      rw [bump, if_neg hkk, List.map_cons, if_neg hkk,
        ih hkrest hnd.2]

/-- `bump` at a present key preserves the key sequence. -/
theorem keysOf_bump_mem {κ : Type} [DecidableEq κ] {m : List (κ × ℕ)} {k : κ}
    (hk : k ∈ keysOf m) (hnd : (keysOf m).Nodup) :
    keysOf (bump m k) = keysOf m := by
  rw [bump_mem hk hnd, keysOf, List.map_map]
  apply List.map_congr_left
  intro p _
  by_cases hpk : p.1 = k
  · simp [Function.comp, hpk]
  · simp [Function.comp, hpk]

/-- Folding `bump` over records whose keys all lie in a distinct-key map
adds, pointwise, the number of matching records to each entry. -/
theorem foldl_bump_all_mem {κ : Type} [DecidableEq κ] (key : LogRecord → κ) :
    ∀ (ls : List LogRecord) (m : List (κ × ℕ)),
    (∀ r ∈ ls, key r ∈ keysOf m) → (keysOf m).Nodup →
    ls.foldl (fun acc r => bump acc (key r)) m
      = m.map (fun p => (p.1, p.2 + (ls.filter (fun r => key r = p.1)).length)) := by
  intro ls
  induction ls with
  | nil =>
    intro m _ _
    simp
  | cons r ls ih =>
    intro m hmem hnd
    have hr : key r ∈ keysOf m := hmem r (List.mem_cons_self r ls)
    rw [List.foldl_cons, bump_mem hr hnd]
    have hkeys : keysOf (m.map (fun p => if p.1 = key r then (p.1, p.2 + 1) else p))
        = keysOf m := by
      rw [← bump_mem hr hnd, keysOf_bump_mem hr hnd]
    rw [ih _ (by rw [hkeys]; exact fun r' hr' => hmem r' (List.mem_cons_of_mem r hr'))
      (by rw [hkeys]; exact hnd)]
    rw [List.map_map]
    apply List.map_congr_left
    intro p _
    by_cases hpk : p.1 = key r
    · have h1 : key r = p.1 := hpk.symm
      simp [List.filter_cons, h1, Prod.ext_iff]
      all_goals omega
    · have hrp : ¬ (key r = p.1) := fun hc => hpk hc.symm
      simp [List.filter_cons, hpk, hrp]

/-- Bucket `j` (0-based, hour `hourKey now - 23 + j`) of the zero-filled
24-hour error histogram: the number of error-tier records whose timestamp
falls in that hour. -/
def hourBucketCount (now : ℤ) (logs : List LogRecord) (j : ℕ) : ℕ :=
  ((logs.filter isErrorTier).filter
    (fun r => hourKey r.time = hourKey now - 23 + (j : ℤ))).length

/-- Rounding to one decimal moves a value by at most 1/20. -/
theorem abs_toFixed1_sub_le (x : ℚ) : |toFixed1 x - x| ≤ 1 / 20 := by
  have h1 := Int.floor_le (x * 10 + 1 / 2)
  have h2 := Int.lt_floor_add_one (x * 10 + 1 / 2)
  rw [toFixed1, jsRound, abs_le]
  constructor <;> linarith

/-- The general field characterization of `errorChartData` on a non-empty
record list whose error records all fall in the 24-hour window ending at
`now`. -/
theorem errorChart_fields (now : ℤ) (l0 : LogRecord) (rest : List LogRecord)
    (hwin : ∀ r ∈ l0 :: rest, isErrorTier r = true →
      hourKey now - 23 ≤ hourKey r.time ∧ hourKey r.time ≤ hourKey now) :
    (errorChartData now (l0 :: rest)).totalErrors
      = some (((l0 :: rest).filter isErrorTier).length)
    ∧ (errorChartData now (l0 :: rest)).errorRate =
        toFixed1 ((((l0 :: rest).filter isErrorTier).length : ℚ)
          / (((l0 :: rest).length : ℚ)) * 100)
    ∧ (errorChartData now (l0 :: rest)).hourlyData =
        some ((List.range 24).map (hourBucketCount now (l0 :: rest)))
    ∧ (errorChartData now (l0 :: rest)).trend =
        (if ((hourBucketCount now (l0 :: rest) 21 + hourBucketCount now (l0 :: rest) 22
              + hourBucketCount now (l0 :: rest) 23 : ℕ) : ℚ) >
            ((hourBucketCount now (l0 :: rest) 18 + hourBucketCount now (l0 :: rest) 19
              + hourBucketCount now (l0 :: rest) 20 : ℕ) : ℚ) * (12 / 10)
         then "up".data
         else if ((hourBucketCount now (l0 :: rest) 21 + hourBucketCount now (l0 :: rest) 22
              + hourBucketCount now (l0 :: rest) 23 : ℕ) : ℚ) <
            ((hourBucketCount now (l0 :: rest) 18 + hourBucketCount now (l0 :: rest) 19
              + hourBucketCount now (l0 :: rest) 20 : ℕ) : ℚ) * (8 / 10)
         then "down".data
         else "stable".data) := by
  have hHpos : (0 : ℤ) ≤ oneHourMs := by norm_num [oneHourMs]
  have hHne : oneHourMs ≠ 0 := by norm_num [oneHourMs]
  have hkeyj : ∀ j : ℕ,
      hourKey (now - (23 - (j : ℤ)) * oneHourMs) = (hourKey now - 23) + (j : ℤ) := by
    intro j
    rw [hourKey, hourKey, Int.fdiv_eq_ediv _ hHpos, Int.fdiv_eq_ediv _ hHpos]
    have hre : now - (23 - (j : ℤ)) * oneHourMs = now + ((j : ℤ) - 23) * oneHourMs := by
      ring
    rw [hre, Int.add_mul_ediv_right _ _ hHne]
    ring
  have hinit : (List.range 24).foldl
      (fun m (j : ℕ) => setVal m (hourKey (now - (23 - (j : ℤ)) * oneHourMs)) 0) []
      = (List.range 24).map (fun (j : ℕ) => ((hourKey now - 23) + (j : ℤ), 0)) := by
    have hinj : Function.Injective
        (fun j : ℕ => hourKey (now - (23 - (j : ℤ)) * oneHourMs)) := by
      intro a b hab
      simp only [hkeyj] at hab
      omega
    rw [foldl_setVal_range _ hinj]
    apply List.map_congr_left
    intro j _
    rw [hkeyj]
  have hkeysinit : keysOf ((List.range 24).map (fun (j : ℕ) => ((hourKey now - 23) + (j : ℤ), 0)))
      = (List.range 24).map (fun (j : ℕ) => (hourKey now - 23) + (j : ℤ)) := by
    simp [keysOf, List.map_map, Function.comp]
  have hnd : ((List.range 24).map (fun (j : ℕ) => (hourKey now - 23) + (j : ℤ))).Nodup := by
    refine List.Nodup.map ?_ (List.nodup_range 24)
    intro a b hab
    simp only at hab
    omega
  have hmem : ∀ r ∈ (l0 :: rest).filter isErrorTier,
      hourKey r.time ∈ (List.range 24).map (fun (j : ℕ) => (hourKey now - 23) + (j : ℤ)) := by
    intro r hr
    obtain ⟨hrl, hrt⟩ := List.mem_filter.mp hr
    obtain ⟨h1, h2⟩ := hwin r hrl hrt
    refine List.mem_map.mpr ⟨(hourKey r.time - (hourKey now - 23)).toNat, ?_, ?_⟩
    · rw [List.mem_range]; omega
    · have htn : (hourKey now - 23)
          + ((hourKey r.time - (hourKey now - 23)).toNat : ℤ) = hourKey r.time := by
        omega
      simpa using htn
  have hfill : ((l0 :: rest).filter isErrorTier).foldl
      (fun m r => bump m (hourKey r.time))
      ((List.range 24).map (fun (j : ℕ) => ((hourKey now - 23) + (j : ℤ), 0)))
      = ((List.range 24).map (fun (j : ℕ) => ((hourKey now - 23) + (j : ℤ), 0))).map
          (fun p => (p.1, p.2 +
            (((l0 :: rest).filter isErrorTier).filter
              (fun r => hourKey r.time = p.1)).length)) := by
    refine foldl_bump_all_mem (fun r => hourKey r.time) _ _ ?_ ?_
    · rw [hkeysinit]; exact hmem
    · rw [hkeysinit]; exact hnd
  have hvals : valsOf (((List.range 24).map (fun (j : ℕ) => ((hourKey now - 23) + (j : ℤ), 0))).map
      (fun p => (p.1, p.2 +
        (((l0 :: rest).filter isErrorTier).filter
          (fun r => hourKey r.time = p.1)).length)))
      = (List.range 24).map (hourBucketCount now (l0 :: rest)) := by
    rw [valsOf, List.map_map, List.map_map]
    apply List.map_congr_left
    intro j _
    simp only [Function.comp, hourBucketCount]
    omega
  have hhd : (List.range 24).map (hourBucketCount now (l0 :: rest))
      = (List.range 24).map (hourBucketCount now (l0 :: rest)) := rfl
  have hlen : ((List.range 24).map (hourBucketCount now (l0 :: rest))).length = 24 := by
    simp
  have hdrop3 : ((List.range 24).map (hourBucketCount now (l0 :: rest))).drop
        (((List.range 24).map (hourBucketCount now (l0 :: rest))).length - 3)
      = [hourBucketCount now (l0 :: rest) 21, hourBucketCount now (l0 :: rest) 22,
         hourBucketCount now (l0 :: rest) 23] := by
    rw [hlen]
    show ((List.range 24).map (hourBucketCount now (l0 :: rest))).drop 21 = _
    rw [← List.map_drop]
    have hr : (List.range 24).drop 21 = [21, 22, 23] := by decide
    rw [hr]
    rfl
  have hprev3 : (((List.range 24).map (hourBucketCount now (l0 :: rest))).take
        (((List.range 24).map (hourBucketCount now (l0 :: rest))).length - 3)).drop
        (((List.range 24).map (hourBucketCount now (l0 :: rest))).length - 6)
      = [hourBucketCount now (l0 :: rest) 18, hourBucketCount now (l0 :: rest) 19,
         hourBucketCount now (l0 :: rest) 20] := by
    rw [hlen]
    show (((List.range 24).map (hourBucketCount now (l0 :: rest))).take 21).drop 18 = _
    rw [← List.map_take, ← List.map_drop]
    have hr : ((List.range 24).take 21).drop 18 = [18, 19, 20] := by decide
    rw [hr]
    rfl
  have hsum3 : ∀ a b c : ℕ, List.sum [a, b, c] = a + b + c := by
    intro a b c
    rw [List.sum_cons, List.sum_cons, List.sum_cons, List.sum_nil]
    omega
  refine ⟨?_, ?_, ?_, ?_⟩
  · simp only [errorChartData]
  · simp only [errorChartData]
  · simp only [errorChartData, hinit, hfill, hvals]
  · simp only [errorChartData, hinit, hfill, hvals, hdrop3, hprev3, hsum3]

/-- The 100-record example of the spec: 7 ERROR, 2 FATAL, 91 INFO, all at
epoch 0, observed with `now` at hour 23 so every record is in-window. -/
def exampleLogs100 : List LogRecord :=
  List.replicate 7 ⟨0, [], some ("ERROR".data), none, none⟩
  ++ List.replicate 2 ⟨0, [], some ("FATAL".data), none, none⟩
  ++ List.replicate 91 ⟨0, [], some ("INFO".data), none, none⟩

/-- C6: a record counts as an error exactly when its (present, truthy) level
uppercases to ERROR, FATAL or CRITICAL; the reported error rate is the error
fraction times 100 rounded to one decimal (so within 1/20 of the exact
value); the hourly histogram is the 24 zero-filled hour buckets ending at
`now`; the trend compares the sum of the 3 most recent hourly buckets with
1.2 resp. 0.8 times the sum of the preceding 3; and on the spec's concrete
100-record example (7 ERROR, 2 FATAL, 0 CRITICAL) the rate is exactly 9 and
the error count exactly 9. -/
theorem C6_errorChart (now : ℤ) (l0 : LogRecord) (rest : List LogRecord)
    (hwin : ∀ r ∈ l0 :: rest, isErrorTier r = true →
      hourKey now - 23 ≤ hourKey r.time ∧ hourKey r.time ≤ hourKey now) :
    (∀ r : LogRecord, isErrorTier r = true ↔
      ∃ l, r.level = some l ∧ l ≠ [] ∧
        jsUpper l ∈ ["ERROR".data, "FATAL".data, "CRITICAL".data])
    ∧ (errorChartData now (l0 :: rest)).totalErrors
        = some (((l0 :: rest).filter isErrorTier).length)
    ∧ |(errorChartData now (l0 :: rest)).errorRate
        - (((l0 :: rest).filter isErrorTier).length : ℚ)
          / (((l0 :: rest).length : ℚ)) * 100| ≤ 1 / 20
    ∧ (errorChartData now (l0 :: rest)).hourlyData =
        some ((List.range 24).map (hourBucketCount now (l0 :: rest)))
    ∧ (errorChartData now (l0 :: rest)).trend =
        (if ((hourBucketCount now (l0 :: rest) 21 + hourBucketCount now (l0 :: rest) 22
              + hourBucketCount now (l0 :: rest) 23 : ℕ) : ℚ) >
            ((hourBucketCount now (l0 :: rest) 18 + hourBucketCount now (l0 :: rest) 19
              + hourBucketCount now (l0 :: rest) 20 : ℕ) : ℚ) * (12 / 10)
         then "up".data
         else if ((hourBucketCount now (l0 :: rest) 21 + hourBucketCount now (l0 :: rest) 22
              + hourBucketCount now (l0 :: rest) 23 : ℕ) : ℚ) <
            ((hourBucketCount now (l0 :: rest) 18 + hourBucketCount now (l0 :: rest) 19
              + hourBucketCount now (l0 :: rest) 20 : ℕ) : ℚ) * (8 / 10)
         then "down".data
         else "stable".data)
    ∧ (errorChartData (23 * oneHourMs) exampleLogs100).errorRate = 9
    ∧ (errorChartData (23 * oneHourMs) exampleLogs100).totalErrors = some 9 := by
  obtain ⟨ht, hr, hhd, htr⟩ := errorChart_fields now l0 rest hwin
  have htier : ∀ r : LogRecord, isErrorTier r = true ↔
      ∃ l, r.level = some l ∧ l ≠ [] ∧
        jsUpper l ∈ ["ERROR".data, "FATAL".data, "CRITICAL".data] := by
    intro r
    cases hlev : r.level with
    | none => simp [isErrorTier, hlev]
    | some l => simp [isErrorTier, hlev]
  have hex : ∃ e0 erest, exampleLogs100 = e0 :: erest := by
    refine ⟨⟨0, [], some ("ERROR".data), none, none⟩,
      List.replicate 6 ⟨0, [], some ("ERROR".data), none, none⟩
      ++ List.replicate 2 ⟨0, [], some ("FATAL".data), none, none⟩
      ++ List.replicate 91 ⟨0, [], some ("INFO".data), none, none⟩, ?_⟩
    rfl
  obtain ⟨e0, erest, hsplit⟩ := hex
  have hwinex : ∀ r ∈ e0 :: erest, isErrorTier r = true →
      hourKey (23 * oneHourMs) - 23 ≤ hourKey r.time
        ∧ hourKey r.time ≤ hourKey (23 * oneHourMs) := by
    rw [← hsplit]
    decide
  obtain ⟨hext, hexr, -, -⟩ := errorChart_fields (23 * oneHourMs) e0 erest hwinex
  have hcount : ((e0 :: erest).filter isErrorTier).length = 9 := by
    rw [← hsplit]
    decide
  have htotal : (e0 :: erest).length = 100 := by
    rw [← hsplit]
    decide
  refine ⟨htier, ht, ?_, hhd, htr, ?_, ?_⟩
  · rw [hr]
    exact abs_toFixed1_sub_le _
  · rw [hsplit, hexr, hcount, htotal]
    show toFixed1 ((9 : ℚ) / 100 * 100) = 9
    rw [toFixed1, jsRound]
    norm_num
  · rw [hsplit, hext, hcount]

/-- C6 counterexample to the exact-rate reading: with 3 records of which one
is an ERROR, the code reports `(1/3*100).toFixed(1)` = 33.3, not the exact
ratio 100/3 — the rate passes through one-decimal rounding. -/
theorem C6_rate_counterexample :
    (errorChartData (23 * oneHourMs)
      [⟨0, [], some ("ERROR".data), none, none⟩,
       ⟨0, [], some ("INFO".data), none, none⟩,
       ⟨0, [], some ("INFO".data), none, none⟩]).errorRate = 333 / 10
    ∧ ((1 : ℚ) / 3 * 100) ≠ 333 / 10 := by
  obtain ⟨-, hr, -, -⟩ := errorChart_fields (23 * oneHourMs)
    ⟨0, [], some ("ERROR".data), none, none⟩
    [⟨0, [], some ("INFO".data), none, none⟩,
     ⟨0, [], some ("INFO".data), none, none⟩] (by decide)
  constructor
  · rw [hr]
    have hc : (([⟨0, [], some ("ERROR".data), none, none⟩,
        ⟨0, [], some ("INFO".data), none, none⟩,
        ⟨0, [], some ("INFO".data), none, none⟩] : List LogRecord).filter
          isErrorTier).length = 1 := by decide
    have ht : ([⟨0, [], some ("ERROR".data), none, none⟩,
        ⟨0, [], some ("INFO".data), none, none⟩,
        ⟨0, [], some ("INFO".data), none, none⟩] : List LogRecord).length = 3 := by
      decide
    rw [hc, ht]
    rw [toFixed1, jsRound]
    norm_num
  · norm_num

/-- Closed witness for C6: two records (one ERROR, one INFO) at epoch 0
observed at hour 23. -/
theorem C6_errorChart_witness :
    (errorChartData (23 * oneHourMs)
      [⟨0, [], some ("ERROR".data), none, none⟩,
       ⟨0, [], some ("INFO".data), none, none⟩]).totalErrors = some 1 := by
  have h := C6_errorChart (23 * oneHourMs)
    ⟨0, [], some ("ERROR".data), none, none⟩
    [⟨0, [], some ("INFO".data), none, none⟩]
    (by decide)
  have h2 := h.2.1
  rw [h2]
  decide

/-! ### TimelineChart / StackedAreaChart (part_002): time bucketing

Both charts sort their `Map` keys with `Array.prototype.sort()` and NO
comparator: the JS default sort compares elements as strings (UTF-16 code
units), embedded here via the decimal representation `Int.repr`. -/

/-- Lexicographic (UTF-16 code unit) strict comparison of two strings, the
order used by the JS default sort. -/
def strLtB : List Char → List Char → Bool
  | [], [] => false
  | [], _ :: _ => true
  | _ :: _, [] => false
  | a :: as, b :: bs =>
    if a.toNat < b.toNat then true
    else if b.toNat < a.toNat then false
    else strLtB as bs

/-- `String(n)` for an integer-valued JS number (the chart keys are epoch
milliseconds and bucket starts, always integers small enough to print in
plain decimal). -/
def jsNumStr (n : ℤ) : List Char := (Int.repr n).data

/-- Insertion step of the default-sort model. -/
def insertNum (x : ℤ) : List ℤ → List ℤ
  | [] => [x]
  | y :: ys => if strLtB (jsNumStr x) (jsNumStr y) then x :: y :: ys else y :: insertNum x ys

/-- `Array.prototype.sort()` with no comparator on a number array: sort
ascending by the string representations. -/
def jsDefaultSort (l : List ℤ) : List ℤ := l.foldr insertNum []

/-- `Math.floor(t / 60000) * 60000`: the 1-minute bucket start. -/
def minuteKey (t : ℤ) : ℤ := Int.fdiv t 60000 * 60000

/-- `TimelineChart.chartData` (part_002, lines 112-146): the
`(timestamps, counts)` series of the 1-minute histogram. The init loop
`for (time = minTime; time <= maxTime; time += 60000)` runs
`(maxTime - minTime) / 60000 + 1` times, flooring each visited instant to
its bucket; the fill loop increments (creating if absent) each record's
bucket; the keys are then sorted with the default (string) sort and read
back with `buckets.get(t) || 0`. -/
def timelineBuckets (logs : List LogRecord) : List ℤ × List ℕ :=
  match logs with
  | [] => ([], [])
  | l0 :: rest =>
    let times := (l0 :: rest).map LogRecord.time
    let minTime := times.foldl min l0.time
    let maxTime := times.foldl max l0.time
    let iter : ℕ := (maxTime - minTime).toNat / 60000 + 1
    let initMap := (List.range iter).foldl
      (fun m (k : ℕ) => setVal m (minuteKey (minTime + (k : ℤ) * 60000)) 0) []
    let filled := times.foldl (fun m t => bump m (minuteKey t)) initMap
    let sortedKeys := jsDefaultSort (keysOf filled)
    (sortedKeys, sortedKeys.map (fun t => (getVal filled t).getD 0))

/-- `StackedAreaChart.chartData` (part_002, lines 219-296), up to the sorted
bucket-key sequence (`timestamps`). Unlike TimelineChart, the init loop
`buckets.set(time, new Map())` registers the UNFLOORED instants
`startTime + k*600000` as keys, while the fill loop uses the floored
10-minute bucket `floor(logTime/600000)*600000`, creating it when absent and
incrementing the inner per-group counter. -/
def stackedTimestamps (g : GroupField) (logs : List LogRecord) : List ℤ :=
  match logs with
  | [] => []
  | l0 :: rest =>
    let times := (l0 :: rest).map LogRecord.time
    let startTime := times.foldl min l0.time
    let endTime := times.foldl max l0.time
    let iter : ℕ := (endTime - startTime).toNat / 600000 + 1
    let initMap : List (ℤ × List (JStr × ℕ)) := (List.range iter).foldl
      (fun m (k : ℕ) => setVal m (startTime + (k : ℤ) * 600000) []) []
    let filled := (l0 :: rest).foldl (fun m r =>
      let bucketTime := Int.fdiv r.time 600000 * 600000
      let m1 := if (getVal m bucketTime).isNone then setVal m bucketTime [] else m
      let bucket := (getVal m1 bucketTime).getD []
      setVal m1 bucketTime (bump bucket (groupKeyOf g r))) initMap
    jsDefaultSort (keysOf filled)

/-- C2, evaluated at the failing inputs. Two records at epoch 60000 ms and
120000 ms: TimelineChart emits the bucket keys as `[120000, 60000]` — the
default string sort puts "120000" before "60000" — which is not ascending,
contradicting the claimed ascending ordering. One record at epoch 5000 ms:
StackedAreaChart emits the keys `[0, 5000]`, where 5000 is not a multiple of
the 10-minute width 600000, contradicting the claim that every key is
`floor(timestamp/width)*width` (the claimed key sequence is just `[0]`). -/
theorem C2_code_eval :
    timelineBuckets
        [⟨60000, [], none, none, none⟩, ⟨120000, [], none, none, none⟩]
      = ([120000, 60000], [1, 1])
    ∧ ¬ ((120000 : ℤ) ≤ 60000)
    ∧ stackedTimestamps .level [⟨5000, [], none, none, none⟩] = [0, 5000]
    ∧ Int.fdiv 5000 600000 * 600000 ≠ (5000 : ℤ) := by
  exact ⟨by decide, by decide, by decide, by decide⟩

/-! ### Remaining chart aggregations (for the empty-input safety claim) -/

/-- Stable insertion (descending by weight) modelling the stable JS
`sort((a, b) => b.w - a.w)`. -/
def insertDescBy {α : Type} (w : α → ℕ) (x : α) : List α → List α
  | [] => [x]
  | y :: ys => if w y ≤ w x then x :: y :: ys else y :: insertDescBy w x ys

/-- Stable descending sort by a numeric weight. -/
def sortDescBy {α : Type} (w : α → ℕ) (l : List α) : List α :=
  l.foldr (insertDescBy w) []

/-- `PieChart.chartData` (part_002): count by group, sort descending by
count, keep the top 8; `(labels, data)` (colors are presentational). -/
def pieChartData (g : GroupField) (logs : List LogRecord) : List JStr × List ℕ :=
  match logs with
  | [] => ([], [])
  | _ :: _ =>
    let sorted := (sortDescBy Prod.snd (groupCounts g logs)).take 8
    (sorted.map Prod.fst, sorted.map Prod.snd)

/-- `DonutChart.chartData`: as the pie chart but keeping the top 6. -/
def donutChartData (g : GroupField) (logs : List LogRecord) : List JStr × List ℕ :=
  match logs with
  | [] => ([], [])
  | _ :: _ =>
    let sorted := (sortDescBy Prod.snd (groupCounts g logs)).take 6
    (sorted.map Prod.fst, sorted.map Prod.snd)

/-- `TreemapChart.treemapData` up to the `(name, value)` items: count by
group, sort descending, keep the top 12 (the greedy rectangle layout that
follows is presentation geometry). -/
def treemapItems (g : GroupField) (logs : List LogRecord) : List (JStr × ℕ) :=
  match logs with
  | [] => []
  | _ :: _ => (sortDescBy Prod.snd (groupCounts g logs)).take 12

/-- `ServiceChart.serviceData`: count by `service || 'Unknown'`, sort
descending, keep the top 10. -/
def serviceChartData (logs : List LogRecord) : List (JStr × ℕ) :=
  match logs with
  | [] => []
  | _ :: _ => (sortDescBy Prod.snd (serviceCounts logs)).take 10

/-- `log.host || 'Unknown'`: the key used by HostChart. -/
def hostKeyOf (r : LogRecord) : JStr :=
  match r.host with
  | some h => if h = [] then "Unknown".data else h
  | none => "Unknown".data

/-- One row of `HostChart.hostData`. -/
structure HostEntry where
  host : JStr
  count : ℕ
  recentActivity : ℕ
  status : JStr
deriving DecidableEq

/-- `HostChart.hostData`: per-host totals, per-host counts over the last five
minutes before `now`, an active/inactive status from the latter
(`undefined > 0` is false, so absent hosts are inactive), sorted descending
by total and truncated to the top 8. -/
def hostChartData (now : ℤ) (logs : List LogRecord) : List HostEntry :=
  match logs with
  | [] => []
  | _ :: _ =>
    let hostCounts := logs.foldl (fun m r => bump m (hostKeyOf r)) []
    let fiveMinutesAgo := now - 5 * 60 * 1000
    let recentActivity := (logs.filter (fun r => fiveMinutesAgo < r.time)).foldl
      (fun m r => bump m (hostKeyOf r)) []
    let entries := hostCounts.map (fun p =>
      { host := p.1, count := p.2,
        recentActivity := (getVal recentActivity p.1).getD 0,
        status := if 0 < (getVal recentActivity p.1).getD 0
          then "active".data else "inactive".data : HostEntry })
    (sortDescBy HostEntry.count entries).take 8

/-- Lexicographic insertion for the default (string) sort of
`Object.keys(levelCounts).sort()`. -/
def insertStr (x : JStr) : List JStr → List JStr
  | [] => [x]
  | y :: ys => if strLtB x y then x :: y :: ys else y :: insertStr x ys

/-- `Array.prototype.sort()` on a string array. -/
def jsStrSort (l : List JStr) : List JStr := l.foldr insertStr []

/-- `log.level || 'UNKNOWN'`: the key used by LogLevelChart. -/
def levelKeyOf (r : LogRecord) : JStr :=
  match r.level with
  | some l => if l = [] then "UNKNOWN".data else l
  | none => "UNKNOWN".data

/-- `LogLevelChart.chartData`: level frequency counts with the keys sorted
lexicographically, emitted as `(levels, counts)`. -/
def logLevelChartData (logs : List LogRecord) : List JStr × List ℕ :=
  match logs with
  | [] => ([], [])
  | _ :: _ =>
    let levelCounts := logs.foldl (fun m r => bump m (levelKeyOf r)) []
    let levels := jsStrSort (keysOf levelCounts)
    (levels, levels.map (fun l => (getVal levelCounts l).getD 0))

/-- Increment position `i` of a row (no-op out of range, as the 0-23 hour
index always is in range). -/
def bumpAt : List ℕ → ℕ → List ℕ
  | [], _ => []
  | x :: xs, 0 => (x + 1) :: xs
  | x :: xs, i + 1 => x :: bumpAt xs i

/-- Increment cell `(d, h)` of the 7×24 grid. -/
def bumpGrid : List (List ℕ) → ℕ → ℕ → List (List ℕ)
  | [], _, _ => []
  | row :: rows, 0, h => bumpAt row h :: rows
  | row :: rows, d + 1, h => row :: bumpGrid rows d h

/-- `HeatmapChart.heatmapData`: a 7×24 zero grid incremented once per record
at `(getDay, getHours)` — the platform's local-time day/hour extraction is a
parameter — plus the grid maximum. -/
def heatmapData (dayOf hourOf : ℤ → ℕ) (logs : List LogRecord) :
    List (List ℕ) × ℕ :=
  match logs with
  | [] => ([], 0)
  | _ :: _ =>
    let grid0 : List (List ℕ) := List.replicate 7 (List.replicate 24 0)
    let grid := logs.foldl (fun gr r => bumpGrid gr (dayOf r.time) (hourOf r.time)) grid0
    (grid, (grid.map (fun row => row.foldl max 0)).foldl max 0)

/-- `RadarChart.radarData`: the six named 0-100 metrics (strict-equality
level counts, activity against a 1000-record scale, distinct-service count
against 10, with the warn/error rates inverted). -/
def radarData (logs : List LogRecord) : List (JStr × ℚ) :=
  match logs with
  | [] => []
  | _ :: _ =>
    let totalLogs : ℚ := (logs.length : ℚ)
    let errorLogs := (logs.filter (fun r => r.level = some ("ERROR".data))).length
    let warnLogs := (logs.filter (fun r => r.level = some ("WARN".data))).length
    let infoLogs := (logs.filter (fun r => r.level = some ("INFO".data))).length
    let debugLogs := (logs.filter (fun r => r.level = some ("DEBUG".data))).length
    let errorRate := (errorLogs : ℚ) / totalLogs * 100
    let warnRate := (warnLogs : ℚ) / totalLogs * 100
    let activityRate := min ((logs.length : ℚ) / 1000 * 100) 100
    let infoRate := (infoLogs : ℚ) / totalLogs * 100
    let debugRate := (debugLogs : ℚ) / totalLogs * 100
    let uniqueServices := (logs.map LogRecord.service).dedup.length
    let serviceDistribution := min ((uniqueServices : ℚ) / 10 * 100) 100
    [("Activity".data, activityRate),
     ("Info Rate".data, infoRate),
     ("Debug Rate".data, debugRate),
     ("Service Dist".data, serviceDistribution),
     ("Warn Rate".data, 100 - warnRate),
     ("Error Rate".data, 100 - errorRate)]

/-- C9: every chart aggregation applied to the empty record sequence takes
its explicit empty-input guard and returns the defined zero/empty result —
rate 0 and trend "stable" for the error analysis, value 0 for every gauge
metric, and empty series for the frequency, bucketing, heatmap, pie, donut,
treemap, radar, service, host and level aggregations — with no division
performed (all embedded functions are total, so no exception or NaN can
arise). -/
theorem C9_empty_input (now : ℤ) (g : GroupField) (m : GaugeMetric)
    (dayOf hourOf : ℤ → ℕ) :
    gaugeValue m [] = 0
    ∧ errorChartData now [] = ⟨[], "stable".data, 0, none, none⟩
    ∧ timelineBuckets [] = ([], [])
    ∧ stackedTimestamps g [] = []
    ∧ pieChartData g [] = ([], [])
    ∧ donutChartData g [] = ([], [])
    ∧ treemapItems g [] = []
    ∧ serviceChartData [] = []
    ∧ hostChartData now [] = []
    ∧ logLevelChartData [] = ([], [])
    ∧ heatmapData dayOf hourOf [] = ([], 0)
    ∧ radarData [] = [] :=
  ⟨rfl, rfl, rfl, rfl, rfl, rfl, rfl, rfl, rfl, rfl, rfl, rfl⟩

end VicLogs
